import Mathlib

/-!
Verification development for the speech-to-text grievance-call pipeline.

The development shallowly embeds the two Python source files:

* `main.py` — batch pipeline: `is_valid_file`, `is_supported_format`,
  `create_transcript_file`, `detect_and_route_language`, `reduce_noise`,
  `process_file`, `process_directory`, `parse_args`/`main`;
* the live-session demo (`demo audio.py`) — `detect_and_translate`,
  `listen_keyboard`, `main`.

External collaborators (Google recognizer, langdetect, googletrans,
filesystem, keyboard) are modelled as oracles.  Floating-point signal
arithmetic is modelled over `ℝ`/`ℂ`; the one NaN that can arise
(`np.mean` of an empty selection) is modelled with `Option`.
-/

/-! ## Path handling (os.path.basename / os.path.splitext semantics) -/

/-- Characters of the basename: everything after the last `/`
(`os.path.basename` for POSIX paths). -/
def basenameChars (cs : List Char) : List Char :=
  (cs.reverse.takeWhile (fun c => c != '/')).reverse

/-- `os.path.splitext` recognises an extension in a basename iff there is a
`.` with at least one non-dot character before it (so `.bashrc` has no
extension).  `name` must already be a basename (no `/`). -/
def extValid (name : List Char) : Bool :=
  name.contains '.' &&
    (((name.reverse.dropWhile (fun c => c != '.')).drop 1).reverse.any
      (fun c => c != '.'))

/-- The extension of a basename, dot included — `os.path.splitext name .2`. -/
def extChars (name : List Char) : List Char :=
  if extValid name then '.' :: (name.reverse.takeWhile (fun c => c != '.')).reverse
  else []

/-- The stem of a basename — `os.path.splitext name .1`. -/
def stemChars (name : List Char) : List Char :=
  if extValid name then ((name.reverse.dropWhile (fun c => c != '.')).drop 1).reverse
  else name

/-- `.m4a, .mp3, .webm, .mp4, .mpga, .wav, .mpeg` — `SUPPORTED_FORMATS`. -/
def SUPPORTED_FORMATS : List String :=
  [".m4a", ".mp3", ".webm", ".mp4", ".mpga", ".wav", ".mpeg"]

/-- `is_supported_format`: the lower-cased extension of the path is in
`SUPPORTED_FORMATS` (the extension of a full path is the extension of its
basename, as in `os.path.splitext`). -/
def is_supported_format (file_path : String) : Bool :=
  SUPPORTED_FORMATS.contains
    (String.mk ((extChars (basenameChars file_path.data)).map Char.toLower))

/-- `base_filename, _ = os.path.splitext(os.path.basename(file_path))`
in `create_transcript_file`. -/
def transcriptBase (file_path : String) : String :=
  String.mk (stemChars (basenameChars file_path.data))

/-- `output_file_path = f"{base_filename}-transcript.txt"`. -/
def transcriptPath (file_path : String) : String :=
  transcriptBase file_path ++ "-transcript.txt"

/-! ## Filesystem model

A flat association of paths to text contents.  `os.path.isfile` /
`os.path.exists` become lookups; `open(p, 'w')` followed by writes becomes
`fsSet` (the filesystem collaborator's writes succeed in the model;
`create_transcript_file`'s `except` branch only logs). -/

def FS : Type := List (String × String)

/-- Content of the file at `p`: the most recent write wins. -/
def fsGet : FS → String → Option String
  | [], _ => none
  | e :: rest, q => if e.1 = q then some e.2 else fsGet rest q

/-- A write prepends; `fsGet` reads the most recent entry, so older
contents are shadowed exactly as a file overwrite shadows old bytes. -/
def fsSet (fs : FS) (p v : String) : FS := (p, v) :: fs

/-- `is_valid_file`: `os.path.isfile` — the path is present in the model
filesystem. -/
def is_valid_file (fs : FS) (file_path : String) : Bool :=
  (fsGet fs file_path).isSome

/-! ## Collaborators and events of the batch pipeline (`main.py`) -/

/-- Result of `recognizer.recognize_google(audio_data)` on the audio at a
path: success, `sr.UnknownValueError`, `sr.RequestError`, or any other
exception. -/
inductive RecResult
  | ok (transcript : String)
  | unknownValue
  | requestError
  | otherError
deriving DecidableEq

/-- Oracles for the external collaborators of `main.py`.
`detectLang t = none` models `langdetect.detect` raising an exception on
`t`; `translate t = none` models `googletrans` raising. -/
structure Collab where
  recognize : String → RecResult
  detectLang : String → Option String
  translate : String → Option String

/-- Observable events of one unit (log lines and writes), used to state
trace properties.  `denoised` is the spec's `Acquired → Denoised` stage;
the theorems show the code never emits it. -/
inductive Event
  | invalidInput
  | recognitionFailed
  | skippedExistingTranscript
  | wroteTranscript
  | translationFailed
  | wroteTranslation
  | denoised
deriving DecidableEq

/-- `detect_and_route_language` (main.py 46-68): recognise, then detect the
language of the transcript.  All three `except` arms return
`(None, None)`; in particular the generic `except Exception` catches a
`langdetect` failure after a successful recognition. -/
def detect_and_route_language (c : Collab) (file_path : String) :
    Option String × Option String :=
  match c.recognize file_path with
  | .ok transcript =>
      match c.detectLang transcript with
      | some lang => (some lang, some transcript)
      | none => (none, none)
  | .unknownValue => (none, none)
  | .requestError => (none, none)
  | .otherError => (none, none)

/-- `create_transcript_file` (main.py 24-43).  Both call sites pass
`confidence_scores=None`, so the confidence branch is never taken and is
not modelled.  If the output path exists the write is skipped; otherwise
the file receives the header line `base:` and the transcript. -/
def create_transcript_file (fs : FS) (file_path transcript : String) :
    FS × List Event :=
  if (fsGet fs (transcriptPath file_path)).isSome then
    (fs, [Event.skippedExistingTranscript])
  else
    (fsSet fs (transcriptPath file_path)
      (transcriptBase file_path ++ ":\n" ++ transcript),
     [Event.wroteTranscript])

/-- The translation tail shared by `process_file` (105-112) and
`process_directory` (134-140): on success the translated text plus a
newline is written to `f"{file_path}-transcript_en.txt"` with a plain
`open(..., 'w')` — no existence check; on failure the error is logged. -/
def translateAndWrite (c : Collab) (fs : FS) (file_path transcript : String) :
    FS × List Event :=
  match c.translate transcript with
  | some translated =>
      (fsSet fs (file_path ++ "-transcript_en.txt") (translated ++ "\n"),
       [Event.wroteTranslation])
  | none => (fs, [Event.translationFailed])

/-- `process_file` (main.py 92-112). -/
def process_file (c : Collab) (fs : FS) (file_path : String)
    (translate_to_english : Bool) : FS × List Event :=
  if !(is_valid_file fs file_path) || !(is_supported_format file_path) then
    (fs, [Event.invalidInput])
  else
    match detect_and_route_language c file_path with
    | (_, none) => (fs, [Event.recognitionFailed])
    | (_, some transcript) =>
        let r := create_transcript_file fs file_path transcript
        if translate_to_english then
          let r2 := translateAndWrite c r.1 file_path transcript
          (r2.1, r.2 ++ r2.2)
        else r

/-! ## Directory processing (`process_directory`, main.py 115-140) -/

/-- Python-level failures that escape the modelled functions. -/
inductive PyErr
  | typeError
  | uncaughtException
deriving DecidableEq

/-- The filesystem collaborator for directory traversal: `isDir` is
`os.path.isdir`; `walk d` is the list of `(root, files)` pairs that
`os.walk d` yields for the tree under `d` (the unused `dirs` component is
omitted). -/
structure DirWorld where
  isDir : String → Bool
  walk : String → List (String × List String)

/-- The body of the inner loop of `process_directory` for one file of one
walk triple: `os.path.join(root, file)`, the format filter, recognition,
transcript creation and the optional translation write. -/
def processWalkFile (c : Collab) (translate_to_english : Bool) (fs : FS)
    (root file : String) : FS × List Event :=
  if !(is_supported_format (root ++ "/" ++ file)) then (fs, [])
  else
    match detect_and_route_language c (root ++ "/" ++ file) with
    | (_, none) => (fs, [Event.recognitionFailed])
    | (_, some transcript) =>
        let r := create_transcript_file fs (root ++ "/" ++ file) transcript
        if translate_to_english then
          let r2 := translateAndWrite c r.1 (root ++ "/" ++ file) transcript
          (r2.1, r.2 ++ r2.2)
        else r

/-- Fold of `processWalkFile` over the files of one triple. -/
def processTripleFiles (c : Collab) (translate_to_english : Bool)
    (root : String) : List String → FS → FS × List Event
  | [], fs => (fs, [])
  | f :: rest, fs =>
      let r := processWalkFile c translate_to_english fs root f
      let r2 := processTripleFiles c translate_to_english root rest r.1
      (r2.1, r.2 ++ r2.2)

/-- Fold over all walk triples. -/
def processWalk (c : Collab) (translate_to_english : Bool) :
    List (String × List String) → FS → FS × List Event
  | [], fs => (fs, [])
  | (root, files) :: rest, fs =>
      let r := processTripleFiles c translate_to_english root files fs
      let r2 := processWalk c translate_to_english rest r.1
      (r2.1, r.2 ++ r2.2)

/-- `process_directory` (main.py 115-140).  Line 123 is
`os.walk(directory_path if recursive else [directory_path])`: with
`recursive=False` the *list* `[directory_path]` is handed to `os.walk`,
whose `os.scandir` then raises `TypeError` (not an `OSError`, hence not
swallowed) at the first iteration of the `for` loop, before any file is
processed. -/
def process_directory (w : DirWorld) (c : Collab) (directory_path : String)
    (recursive translate_to_english : Bool) (fs : FS) :
    Except PyErr (FS × List Event) :=
  if !(w.isDir directory_path) then .ok (fs, [Event.invalidInput])
  else if recursive then
    .ok (processWalk c translate_to_english (w.walk directory_path) fs)
  else .error .typeError

/-! ## CLI arguments and `main` (main.py 143-168) -/

/-- The namespace produced by `parse_args`: `--file`, `--directory`
(mutually exclusive), `--recursive`, `--translate`,
`--noise_reduction`. -/
structure Args where
  input_file_path : Option String
  input_directory_path : Option String
  recursive : Bool
  translate : Bool
  noise_reduction : Bool

/-- `main` (main.py 155-168): dispatch on the input mode, forwarding only
`args.translate` (and `args.recursive` for directories). -/
def mainRun (a : Args) (c : Collab) (w : DirWorld) (fs : FS) :
    Except PyErr (FS × List Event) :=
  match a.input_file_path with
  | some file_path => .ok (process_file c fs file_path a.translate)
  | none =>
      match a.input_directory_path with
      | some dp => process_directory w c dp a.recursive a.translate fs
      | none => .ok (fs, [])

/-- The events of a run, empty if the run died with an exception. -/
def eventsOf : Except PyErr (FS × List Event) → List Event
  | .ok r => r.2
  | .error _ => []

/-! ## Live session (`demo audio.py`) -/

/-- Collaborators of the live session.  `capture n` is the result of
`recognizer.listen(source, timeout=5)` in iteration `n`
(`none` = `sr.WaitTimeoutError`); `recognizeHi a = none` covers the empty
`show_all` result and the two caught recognition errors; `detectLang` and
`translate` return `none` when the library raises — those exceptions are
*not* caught in `detect_and_translate`. -/
structure LiveCollab where
  capture : ℕ → Option String
  recognizeHi : String → Option String
  detectLang : String → Option String
  translate : String → Option String

/-- `detect_and_translate` (demo 11-32): recognise Hindi speech, detect the
transcript's language, translate if it is `hi` or `mr`.  Only
`sr.UnknownValueError` and `sr.RequestError` are caught; a `langdetect` or
`googletrans` failure escapes as an uncaught exception. -/
def detect_and_translate (lc : LiveCollab) (audio : String) :
    Except PyErr (Option String) :=
  match lc.recognizeHi audio with
  | none => .ok none
  | some transcript =>
      match lc.detectLang transcript with
      | none => .error .uncaughtException
      | some lang =>
          if lang = "hi" ∨ lang = "mr" then
            match lc.translate transcript with
            | some translated => .ok (some translated)
            | none => .error .uncaughtException
          else .ok (some transcript)

/-- Status of a modelled thread of the live session. -/
inductive ThreadStatus
  | running
  | finished
deriving DecidableEq

/-- `listen_keyboard` (demo 34-39) observed for `n` polls: the watcher
thread breaks out of *its own* loop and prints `Program terminated.` at the
first poll where the Esc key is down.  It sets no flag and stops nothing
else. -/
def listen_keyboard_run (esc : ℕ → Bool) : ℕ → ThreadStatus × List String
  | 0 => (.running, [])
  | n + 1 =>
      match listen_keyboard_run esc n with
      | (.finished, out) => (.finished, out)
      | (.running, out) =>
          if esc n then (.finished, out ++ ["Program terminated."])
          else (.running, out)

/-- Status of the live-session main loop: the `while True:` body contains
no `break` or `return`, so the loop can only keep running or die with an
uncaught exception — there is no terminated-by-signal state to reach. -/
inductive LiveStatus
  | running
  | crashed (e : PyErr)
deriving DecidableEq

/-- One iteration of the `while True:` loop of the demo's `main`
(demo 50-65): calibrate and prompt, listen (timeout → log and `continue`),
otherwise recognise/translate and print any transcription. -/
def live_main_iter (lc : LiveCollab) (n : ℕ) : Except PyErr (List String) :=
  match lc.capture n with
  | none => .ok ["Speak something...", "Timeout: No speech detected."]
  | some audio =>
      match detect_and_translate lc audio with
      | .error e => .error e
      | .ok none => .ok ["Speak something...", "Listening..."]
      | .ok (some text) =>
          .ok ["Speak something...", "Listening...", "Transcription: " ++ text]

/-- The live-session main loop after `n` iterations.  The keyboard state
`esc` is an argument so that independence from it can be stated; the loop
body, faithfully to the code, never consults it. -/
def live_main_run (lc : LiveCollab) (esc : ℕ → Bool) :
    ℕ → LiveStatus × List String
  | 0 => (.running, [])
  | n + 1 =>
      match live_main_run lc esc n with
      | (.crashed e, out) => (.crashed e, out)
      | (.running, out) =>
          match live_main_iter lc n with
          | .error e => (.crashed e, out)
          | .ok printed => (.running, out ++ printed)

/-! ## Noise reduction (`reduce_noise`, main.py 72-89)

Samples are exact reals; `np.float64` rounding is not modelled, but the
one genuinely non-numeric edge case is: `np.mean` of an *empty* selection
is NaN, which then poisons every later value, so the noise estimate is an
`Option ℝ` and a poisoned output sample is `none` (its concrete `int16`
bits are platform-dependent). -/

noncomputable section

/-- `np.fft.fft`: bin `k` is the sum over `n` of
`x n * exp (-2 pi I k n / N)`. -/
def npFFT (x : List ℂ) : List ℂ :=
  (List.range x.length).map fun k : ℕ =>
    ((List.range x.length).map fun n : ℕ =>
      x.getD n 0 *
        Complex.exp (-(2 * Real.pi * Complex.I) * (k : ℂ) * (n : ℂ) /
          (x.length : ℂ))).sum

/-- `np.fft.ifft`: sample `n` is the sum over `k` of
`X k * exp (2 pi I k n / N)`, divided by `N`. -/
def npIFFT (X : List ℂ) : List ℂ :=
  (List.range X.length).map fun n : ℕ =>
    (((List.range X.length).map fun k : ℕ =>
      X.getD k 0 *
        Complex.exp ((2 * Real.pi * Complex.I) * (k : ℂ) * (n : ℂ) /
          (X.length : ℂ))).sum) / (X.length : ℂ)

/-- `magnitude = np.abs(spectrum)` for the spectrum of the samples. -/
def magnitudes (audio_data : List ℤ) : List ℝ :=
  (npFFT (audio_data.map fun z : ℤ => (z : ℂ))).map Complex.abs

/-- `np.max` over a list of magnitudes (all non-negative). -/
def maxMag (l : List ℝ) : ℝ := l.foldr max 0

/-- `magnitude[noise_mask]` where
`noise_mask = magnitude < noise_threshold * np.max(magnitude)`. -/
def maskedMags (t M : ℝ) : List ℝ → List ℝ
  | [] => []
  | m :: rest =>
      if m < t * M then m :: maskedMags t M rest else maskedMags t M rest

/-- `np.mean`, which is NaN (`none`) on an empty selection. -/
def npMeanOpt (l : List ℝ) : Option ℝ :=
  if l = [] then none else some (l.sum / l.length)

/-- `noise_spectrum = np.mean(magnitude[noise_mask], axis=0)`
(main.py 79-80). -/
def noiseEstimate (audio_data : List ℤ) (noise_threshold : ℝ) : Option ℝ :=
  npMeanOpt
    (maskedMags noise_threshold (maxMag (magnitudes audio_data))
      (magnitudes audio_data))

/-- `np.exp(1j * np.angle z)`: the unit phase factor of `z`, which is `1`
at `z = 0` because `np.angle 0 = 0`. -/
def phaseDir (z : ℂ) : ℂ := if z = 0 then 1 else z / Complex.abs z

/-- Certification that `phaseDir` is the phase factor
`exp (arg z * I)` of the source. -/
theorem phaseDir_eq_exp_arg (z : ℂ) :
    phaseDir z = Complex.exp (z.arg * Complex.I) := by
  unfold phaseDir
  by_cases h : z = 0
  · simp [h, Complex.arg_zero]
  · rw [if_neg h, div_eq_iff (Complex.ofReal_ne_zero.mpr (Complex.abs.ne_zero h)),
      mul_comm]
    exact (Complex.abs_mul_exp_arg_mul_I z).symm

/-- C-style `double → int` conversion truncates toward zero. -/
def truncTowardZero (r : ℝ) : ℤ := if 0 ≤ r then ⌊r⌋ else ⌈r⌉

/-- Reduction of an integer into the signed 16-bit range by wrapping
modulo `2 ^ 16`, which is what `.astype(np.int16)` does to every
out-of-range value representable in 64 bits. -/
def wrap16 (z : ℤ) : ℤ := (z + 32768) % 65536 - 32768

/-- `.astype(np.int16)` on a (finite) float: truncate toward zero, then
wrap modulo `2 ^ 16`. -/
def astypeInt16 (r : ℝ) : ℤ := wrap16 (truncTowardZero r)

/-- Modelled from the spec: the *saturating* cast required by §4.1 step 5
("out-of-range values must be saturated, not wrapped"), for comparison
with `astypeInt16`. -/
def satCastInt16 (r : ℝ) : ℤ := max (-32768) (min 32767 (truncTowardZero r))

/-- `reduce_noise` (main.py 72-89): FFT, mask-based scalar noise estimate,
spectral subtraction clamped at zero, reconstruction with the original
phases, inverse FFT, real part, cast to `int16`.  When the mask is empty
the NaN mean poisons every sample, so every output value is unspecified
(`none`). -/
def reduce_noise (audio_data : List ℤ) (noise_threshold : ℝ) :
    List (Option ℤ) :=
  match noiseEstimate audio_data noise_threshold with
  | none => audio_data.map fun _ => none
  | some ν =>
      let spectrum := npFFT (audio_data.map fun z : ℤ => (z : ℂ))
      let clean_magnitude := (spectrum.map Complex.abs).map fun m => max (m - ν) 0
      let clean_spectrum :=
        List.zipWith (fun (m : ℝ) (z : ℂ) => (m : ℂ) * phaseDir z) clean_magnitude spectrum
      (npIFFT clean_spectrum).map fun w => some (astypeInt16 w.re)

end

/-! ## Exact evaluation of the 4-point transform

For `N = 4` the twiddle factors are powers of `-I` (forward) and `I`
(inverse), so concrete spectra are Gaussian-integer expressions. -/

theorem cexp_negpi2 :
    Complex.exp (((-(Real.pi / 2) : ℝ) : ℂ) * Complex.I) = -Complex.I := by
  rw [Complex.exp_mul_I, ← Complex.ofReal_cos, ← Complex.ofReal_sin,
    Real.cos_neg, Real.sin_neg, Real.cos_pi_div_two, Real.sin_pi_div_two]
  push_cast
  ring

theorem cexp_pospi2 :
    Complex.exp (((Real.pi / 2 : ℝ) : ℂ) * Complex.I) = Complex.I := by
  rw [Complex.exp_mul_I, ← Complex.ofReal_cos, ← Complex.ofReal_sin,
    Real.cos_pi_div_two, Real.sin_pi_div_two]
  push_cast
  ring

theorem cexp_quarter_neg (k n : ℕ) :
    Complex.exp (-(2 * Real.pi * Complex.I) * k * n / ((4 : ℕ) : ℂ)) =
      (-Complex.I) ^ (k * n) := by
  have h : -(2 * (Real.pi : ℂ) * Complex.I) * k * n / ((4 : ℕ) : ℂ) =
      ((k * n : ℕ) : ℂ) * (((-(Real.pi / 2) : ℝ) : ℂ) * Complex.I) := by
    push_cast
    ring
  rw [h, Complex.exp_nat_mul, cexp_negpi2]

theorem cexp_quarter_pos (k n : ℕ) :
    Complex.exp ((2 * Real.pi * Complex.I) * k * n / ((4 : ℕ) : ℂ)) =
      Complex.I ^ (k * n) := by
  have h : (2 * (Real.pi : ℂ) * Complex.I) * k * n / ((4 : ℕ) : ℂ) =
      ((k * n : ℕ) : ℂ) * (((Real.pi / 2 : ℝ) : ℂ) * Complex.I) := by
    push_cast
    ring
  rw [h, Complex.exp_nat_mul, cexp_pospi2]

theorem negI_pow_two : (-Complex.I) ^ 2 = -1 := by
  rw [neg_pow, Complex.I_sq]
  norm_num

theorem negI_pow_three : (-Complex.I) ^ 3 = Complex.I := by
  rw [pow_succ, negI_pow_two]
  ring

theorem negI_pow_four : (-Complex.I) ^ 4 = 1 := by
  rw [pow_succ, negI_pow_three]
  simp [Complex.I_mul_I]

theorem negI_pow_six : (-Complex.I) ^ 6 = -1 := by
  rw [show (6 : ℕ) = 3 * 2 by norm_num, pow_mul, negI_pow_three, Complex.I_sq]

theorem negI_pow_nine : (-Complex.I) ^ 9 = -Complex.I := by
  rw [show (9 : ℕ) = 4 + 4 + 1 by norm_num, pow_add, pow_add, negI_pow_four,
    pow_one]
  ring

theorem I_pow_three : Complex.I ^ 3 = -Complex.I := by
  rw [pow_succ, Complex.I_sq]
  ring

theorem I_pow_four : Complex.I ^ 4 = 1 := by
  rw [pow_succ, I_pow_three]
  simp [Complex.I_mul_I]

theorem I_pow_six : Complex.I ^ 6 = -1 := by
  rw [show (6 : ℕ) = 4 + 2 by norm_num, pow_add, I_pow_four, Complex.I_sq]
  ring

theorem I_pow_nine : Complex.I ^ 9 = Complex.I := by
  rw [show (9 : ℕ) = 4 + 4 + 1 by norm_num, pow_add, pow_add, I_pow_four,
    pow_one]
  ring

theorem npFFT_four (a b c d : ℂ) :
    npFFT [a, b, c, d] =
      [a + b + c + d,
       (a - c) - (b - d) * Complex.I,
       a - b + c - d,
       (a - c) + (b - d) * Complex.I] := by
  have g0 : [a, b, c, d].getD 0 0 = a := rfl
  have g1 : [a, b, c, d].getD 1 0 = b := rfl
  have g2 : [a, b, c, d].getD 2 0 = c := rfl
  have g3 : [a, b, c, d].getD 3 0 = d := rfl
  unfold npFFT
  simp only [List.length_cons, List.length_nil, Nat.zero_add, Nat.reduceAdd,
    show List.range 4 = [0, 1, 2, 3] from rfl, List.map_cons, List.map_nil,
    List.sum_cons, List.sum_nil, g0, g1, g2, g3, cexp_quarter_neg,
    Nat.reduceMul, Nat.mul_zero, Nat.zero_mul, Nat.mul_one, Nat.one_mul,
    pow_zero, pow_one, negI_pow_two, negI_pow_three, negI_pow_four,
    negI_pow_six, negI_pow_nine, List.cons.injEq, and_true]
  exact ⟨by ring, by ring, by ring, by ring⟩

theorem npIFFT_four (A B C D : ℂ) :
    npIFFT [A, B, C, D] =
      [(A + B + C + D) / 4,
       (A + B * Complex.I - C - D * Complex.I) / 4,
       (A - B + C - D) / 4,
       (A - B * Complex.I - C + D * Complex.I) / 4] := by
  have g0 : [A, B, C, D].getD 0 0 = A := rfl
  have g1 : [A, B, C, D].getD 1 0 = B := rfl
  have g2 : [A, B, C, D].getD 2 0 = C := rfl
  have g3 : [A, B, C, D].getD 3 0 = D := rfl
  unfold npIFFT
  simp only [List.length_cons, List.length_nil, Nat.zero_add, Nat.reduceAdd,
    show List.range 4 = [0, 1, 2, 3] from rfl, List.map_cons, List.map_nil,
    List.sum_cons, List.sum_nil, g0, g1, g2, g3, cexp_quarter_pos,
    Nat.reduceMul, Nat.mul_zero, Nat.zero_mul, Nat.mul_one, Nat.one_mul,
    pow_zero, pow_one, Complex.I_sq, I_pow_three, I_pow_four, I_pow_six,
    I_pow_nine, List.cons.injEq, and_true]
  refine ⟨by push_cast; ring, by push_cast; ring, by push_cast; ring,
    by push_cast; ring⟩

theorem npFFT_one (a : ℂ) : npFFT [a] = [a] := by
  have g0 : [a].getD 0 0 = a := rfl
  have h : -(2 * (Real.pi : ℂ) * Complex.I) * ((0 : ℕ) : ℂ) * ((0 : ℕ) : ℂ) /
      ((1 : ℕ) : ℂ) = 0 := by
    push_cast
    ring
  unfold npFFT
  simp only [List.length_cons, List.length_nil, Nat.zero_add,
    show List.range 1 = [0] from rfl, List.map_cons, List.map_nil,
    List.sum_cons, List.sum_nil, g0, h, Complex.exp_zero, mul_one, add_zero]

/-! ## General lemmas about the noise-reduction pipeline -/

theorem npFFT_length (x : List ℂ) : (npFFT x).length = x.length := by
  simp [npFFT]

theorem npIFFT_length (X : List ℂ) : (npIFFT X).length = X.length := by
  simp [npIFFT]

theorem magnitudes_length (audio_data : List ℤ) :
    (magnitudes audio_data).length = audio_data.length := by
  simp [magnitudes, npFFT_length]

theorem magnitudes_nonneg (audio_data : List ℤ) :
    ∀ m ∈ magnitudes audio_data, 0 ≤ m := by
  intro m hm
  obtain ⟨z, _, rfl⟩ := List.mem_map.mp hm
  exact Complex.abs.nonneg z

theorem maskedMags_subset (t M : ℝ) :
    ∀ l : List ℝ, ∀ v ∈ maskedMags t M l, v ∈ l := by
  intro l
  induction l with
  | nil => intro v hv; simp [maskedMags] at hv
  | cons m rest ih =>
      intro v hv
      unfold maskedMags at hv
      by_cases h : m < t * M
      · rw [if_pos h] at hv
        rcases List.mem_cons.mp hv with h1 | h2
        · exact h1 ▸ List.mem_cons_self m rest
        · exact List.mem_cons_of_mem m (ih v h2)
      · rw [if_neg h] at hv
        exact List.mem_cons_of_mem m (ih v hv)

/-- The noise estimate, when defined, is a mean of magnitudes and hence
non-negative. -/
theorem noiseEstimate_nonneg (audio_data : List ℤ) (t ν : ℝ)
    (h : noiseEstimate audio_data t = some ν) : 0 ≤ ν := by
  unfold noiseEstimate npMeanOpt at h
  by_cases he :
      maskedMags t (maxMag (magnitudes audio_data)) (magnitudes audio_data) = []
  · rw [if_pos he] at h
    exact absurd h (by simp)
  · rw [if_neg he] at h
    have hsum : 0 ≤ (maskedMags t (maxMag (magnitudes audio_data))
        (magnitudes audio_data)).sum := by
      apply List.sum_nonneg
      intro v hv
      exact magnitudes_nonneg audio_data v
        (maskedMags_subset _ _ _ v hv)
    have : ν = (maskedMags t (maxMag (magnitudes audio_data))
        (magnitudes audio_data)).sum /
        (maskedMags t (maxMag (magnitudes audio_data))
          (magnitudes audio_data)).length := by
      exact (Option.some_injective ℝ h).symm
    rw [this]
    positivity

theorem reduce_noise_length (audio_data : List ℤ) (t : ℝ) :
    (reduce_noise audio_data t).length = audio_data.length := by
  unfold reduce_noise
  cases h : noiseEstimate audio_data t with
  | none => simp
  | some ν =>
      simp [npIFFT_length, List.length_zipWith, npFFT_length]

/-! ## Helpers for evaluating the pipeline at concrete inputs -/

theorem complex_abs_gauss (x y r : ℝ) (h : x ^ 2 + y ^ 2 = r ^ 2)
    (hr : 0 ≤ r) : Complex.abs ((x : ℂ) + (y : ℂ) * Complex.I) = r := by
  rw [Complex.abs_apply, Complex.normSq_add_mul_I, h, Real.sqrt_sq hr]

theorem astypeInt16_intCast (z : ℤ) : astypeInt16 ((z : ℤ) : ℝ) = wrap16 z := by
  unfold astypeInt16 truncTowardZero
  by_cases h : (0 : ℝ) ≤ (z : ℝ)
  · rw [if_pos h, Int.floor_intCast]
  · rw [if_neg h, Int.ceil_intCast]

theorem noiseEstimate_one : noiseEstimate [1] 1 = none := by
  have hmag : magnitudes [1] = [1] := by
    unfold magnitudes
    rw [show (([1] : List ℤ).map fun z : ℤ => (z : ℂ)) = [(1 : ℂ)] by norm_num,
      npFFT_one]
    simp
  unfold noiseEstimate
  rw [hmag]
  have hmax : maxMag [1] = 1 := by
    unfold maxMag
    simp
  rw [hmax]
  have hmask : maskedMags 1 1 [(1 : ℝ)] = [] := by
    unfold maskedMags
    rw [if_neg (by norm_num)]
    rfl
  rw [hmask]
  simp [npMeanOpt]

/-! ### Concrete evaluation: `reduce_noise [40000, 40000, 40000, 39000] 0.05`

The spectrum is `[159000, -1000 I, 1000, 1000 I]`, the noise estimate is
`1000`, every small bin is subtracted to zero, and the reconstruction is
the constant `39500` — outside the `int16` range. -/

theorem castList_C4 :
    (([40000, 40000, 40000, 39000] : List ℤ).map fun z : ℤ => (z : ℂ)) =
      [(40000 : ℂ), 40000, 40000, 39000] := by
  simp

theorem spec_C4 :
    npFFT [(40000 : ℂ), 40000, 40000, 39000] =
      [159000, -1000 * Complex.I, 1000, 1000 * Complex.I] := by
  rw [npFFT_four]
  simp only [List.cons.injEq, and_true]
  refine ⟨by ring, by ring, by ring, by ring⟩

theorem mapAbs_C4 :
    ([159000, -1000 * Complex.I, 1000, 1000 * Complex.I]).map Complex.abs =
      [159000, 1000, 1000, 1000] := by
  simp only [List.map_cons, List.map_nil, List.cons.injEq, and_true]
  refine ⟨?_, ?_, ?_, ?_⟩
  · rw [show (159000 : ℂ) = ((159000 : ℝ) : ℂ) by norm_num, Complex.abs_ofReal]
    norm_num
  · rw [show (-1000 * Complex.I : ℂ) = ((0 : ℝ) : ℂ) + ((-1000 : ℝ) : ℂ) * Complex.I
      by push_cast; ring]
    rw [complex_abs_gauss 0 (-1000) 1000 (by norm_num) (by norm_num)]
  · rw [show (1000 : ℂ) = ((1000 : ℝ) : ℂ) by norm_num, Complex.abs_ofReal]
    norm_num
  · rw [show (1000 * Complex.I : ℂ) = ((0 : ℝ) : ℂ) + ((1000 : ℝ) : ℂ) * Complex.I
      by push_cast; ring]
    rw [complex_abs_gauss 0 1000 1000 (by norm_num) (by norm_num)]

theorem mags_C4 :
    magnitudes [40000, 40000, 40000, 39000] = [159000, 1000, 1000, 1000] := by
  unfold magnitudes
  rw [castList_C4, spec_C4, mapAbs_C4]

theorem maxMag_C4 : maxMag [(159000 : ℝ), 1000, 1000, 1000] = 159000 := by
  unfold maxMag
  norm_num [max_def]

theorem masked_C4 :
    maskedMags (1 / 20) 159000 [(159000 : ℝ), 1000, 1000, 1000] =
      [1000, 1000, 1000] := by
  unfold maskedMags
  rw [if_neg (by norm_num)]
  unfold maskedMags
  rw [if_pos (by norm_num)]
  unfold maskedMags
  rw [if_pos (by norm_num)]
  unfold maskedMags
  rw [if_pos (by norm_num)]
  rfl

theorem noiseEst_C4 :
    noiseEstimate [40000, 40000, 40000, 39000] (1 / 20) = some 1000 := by
  unfold noiseEstimate
  rw [mags_C4, maxMag_C4, masked_C4]
  unfold npMeanOpt
  rw [if_neg (by simp)]
  norm_num

theorem reduce_C4 :
    reduce_noise [40000, 40000, 40000, 39000] (1 / 20) =
      [some (-26036), some (-26036), some (-26036), some (-26036)] := by
  unfold reduce_noise
  rw [noiseEst_C4]
  dsimp only
  rw [castList_C4, spec_C4, mapAbs_C4]
  have hclean :
      ([159000, 1000, 1000, 1000] : List ℝ).map (fun m => max (m - 1000) 0) =
        [158000, 0, 0, 0] := by
    simp only [List.map_cons, List.map_nil]
    norm_num [max_def]
  rw [hclean]
  have hzip :
      List.zipWith (fun (m : ℝ) (z : ℂ) => (m : ℂ) * phaseDir z)
        [158000, 0, 0, 0] [159000, -1000 * Complex.I, 1000, 1000 * Complex.I] =
        [158000, 0, 0, 0] := by
    simp only [List.zipWith_cons_cons, List.zipWith_nil_right,
      List.zipWith_nil_left]
    unfold phaseDir
    rw [if_neg (by norm_num : (159000 : ℂ) ≠ 0)]
    rw [show Complex.abs 159000 = 159000 by
      rw [show (159000 : ℂ) = ((159000 : ℝ) : ℂ) by norm_num,
        Complex.abs_ofReal]
      norm_num]
    push_cast
    norm_num
  rw [hzip]
  rw [npIFFT_four]
  have hifft :
      [((158000 : ℂ) + 0 + 0 + 0) / 4,
       (158000 + 0 * Complex.I - 0 - 0 * Complex.I) / 4,
       ((158000 : ℂ) - 0 + 0 - 0) / 4,
       (158000 - 0 * Complex.I - 0 + 0 * Complex.I) / 4] =
        [(39500 : ℂ), 39500, 39500, 39500] := by
    simp only [List.cons.injEq, and_true]
    refine ⟨by ring, by ring, by ring, by ring⟩
  rw [hifft]
  simp only [List.map_cons, List.map_nil]
  have hre : (39500 : ℂ).re = ((39500 : ℤ) : ℝ) := by
    norm_num
  rw [hre, astypeInt16_intCast]
  rw [show wrap16 39500 = -26036 by decide]

/-! ### Concrete evaluation: two passes of `reduce_noise` at threshold 15/16

First pass: `[-37, -40, -37, 45] ↦ [-1, -4, -1, 6]` (reconstruction
`[-5/4, -17/4, -5/4, 27/4]`).  Second pass:
`[-1, -4, -1, 6] ↦ [0, -3, 0, 4]` (reconstruction
`[-1/2, -7/2, -1/2, 9/2]`).  Every spectrum bin of both passes is purely
real or purely imaginary (so its magnitude is exact also in binary
floating point), the threshold 15/16 is a dyadic rational, both noise
means are integers (74 and 2), and every reconstructed sample is at
distance at least 1/4 from the nearest integer, so the program's float64
arithmetic truncates to the same two integer outputs, with margin nine
orders of magnitude above its rounding error. -/

theorem castList_C8a :
    (([-37, -40, -37, 45] : List ℤ).map fun z : ℤ => (z : ℂ)) =
      [(-37 : ℂ), -40, -37, 45] := by
  simp

theorem spec_C8a :
    npFFT [(-37 : ℂ), -40, -37, 45] =
      [-69, 85 * Complex.I, -79, -85 * Complex.I] := by
  rw [npFFT_four]
  simp only [List.cons.injEq, and_true]
  refine ⟨by ring, by ring, by ring, by ring⟩

theorem abs_85I : Complex.abs (85 * Complex.I) = 85 := by
  rw [show (85 : ℂ) * Complex.I = ((0 : ℝ) : ℂ) + ((85 : ℝ) : ℂ) * Complex.I
    by push_cast; ring]
  exact complex_abs_gauss 0 85 85 (by norm_num) (by norm_num)

theorem abs_neg85I : Complex.abs (-85 * Complex.I) = 85 := by
  rw [show (-85 : ℂ) * Complex.I = ((0 : ℝ) : ℂ) + ((-85 : ℝ) : ℂ) * Complex.I
    by push_cast; ring]
  exact complex_abs_gauss 0 (-85) 85 (by norm_num) (by norm_num)

theorem mapAbs_C8a :
    ([-69, 85 * Complex.I, -79, -85 * Complex.I]).map Complex.abs =
      [69, 85, 79, 85] := by
  simp only [List.map_cons, List.map_nil, List.cons.injEq, and_true]
  refine ⟨?_, abs_85I, ?_, abs_neg85I⟩
  · rw [show (-69 : ℂ) = ((-69 : ℝ) : ℂ) by norm_num, Complex.abs_ofReal]
    norm_num
  · rw [show (-79 : ℂ) = ((-79 : ℝ) : ℂ) by norm_num, Complex.abs_ofReal]
    norm_num

theorem mags_C8a : magnitudes [-37, -40, -37, 45] = [69, 85, 79, 85] := by
  unfold magnitudes
  rw [castList_C8a, spec_C8a, mapAbs_C8a]

theorem maxMag_C8a : maxMag [(69 : ℝ), 85, 79, 85] = 85 := by
  unfold maxMag
  norm_num [max_def]

theorem masked_C8a :
    maskedMags (15 / 16) 85 [(69 : ℝ), 85, 79, 85] = [69, 79] := by
  unfold maskedMags
  rw [if_pos (by norm_num)]
  unfold maskedMags
  rw [if_neg (by norm_num)]
  unfold maskedMags
  rw [if_pos (by norm_num)]
  unfold maskedMags
  rw [if_neg (by norm_num)]
  rfl

theorem noiseEst_C8a :
    noiseEstimate [-37, -40, -37, 45] (15 / 16) = some 74 := by
  unfold noiseEstimate
  rw [mags_C8a, maxMag_C8a, masked_C8a]
  unfold npMeanOpt
  rw [if_neg (by simp)]
  norm_num

theorem astype_intCast_re (z : ℤ) :
    astypeInt16 (((z : ℤ) : ℂ)).re = wrap16 z := by
  rw [Complex.intCast_re, astypeInt16_intCast]

theorem reduce_C8a :
    reduce_noise [-37, -40, -37, 45] (15 / 16) =
      [some (-1), some (-4), some (-1), some 6] := by
  unfold reduce_noise
  rw [noiseEst_C8a]
  dsimp only
  rw [castList_C8a, spec_C8a, mapAbs_C8a]
  have hclean :
      ([69, 85, 79, 85] : List ℝ).map (fun m => max (m - 74) 0) =
        [0, 11, 5, 11] := by
    simp only [List.map_cons, List.map_nil]
    norm_num [max_def]
  rw [hclean]
  have h85ne : (85 : ℂ) * Complex.I ≠ 0 := by
    intro h
    have h2 := congrArg Complex.im h
    simp at h2
  have h85ne' : (-85 : ℂ) * Complex.I ≠ 0 := by
    intro h
    have h2 := congrArg Complex.im h
    simp at h2
  have hzip :
      List.zipWith (fun (m : ℝ) (z : ℂ) => (m : ℂ) * phaseDir z)
        [0, 11, 5, 11]
        [-69, 85 * Complex.I, -79, -85 * Complex.I] =
        [0, 11 * Complex.I, -5, -11 * Complex.I] := by
    simp only [List.zipWith_cons_cons, List.zipWith_nil_right,
      List.zipWith_nil_left, List.cons.injEq, and_true]
    refine ⟨?_, ?_, ?_, ?_⟩
    · push_cast
      ring
    · unfold phaseDir
      rw [if_neg h85ne, abs_85I]
      push_cast
      field_simp
    · unfold phaseDir
      rw [if_neg (by norm_num : (-79 : ℂ) ≠ 0)]
      rw [show Complex.abs (-79) = 79 by
        rw [show (-79 : ℂ) = ((-79 : ℝ) : ℂ) by norm_num, Complex.abs_ofReal]
        norm_num]
      push_cast
      field_simp
    · unfold phaseDir
      rw [if_neg h85ne', abs_neg85I]
      push_cast
      field_simp
      ring
  rw [hzip, npIFFT_four]
  have hifft :
      [((0 : ℂ) + 11 * Complex.I + -5 + -11 * Complex.I) / 4,
       ((0 : ℂ) + 11 * Complex.I * Complex.I - -5 -
         -11 * Complex.I * Complex.I) / 4,
       ((0 : ℂ) - 11 * Complex.I + -5 - -11 * Complex.I) / 4,
       ((0 : ℂ) - 11 * Complex.I * Complex.I - -5 +
         -11 * Complex.I * Complex.I) / 4] =
      [((-5 / 4 : ℝ) : ℂ), ((-17 / 4 : ℝ) : ℂ), ((-5 / 4 : ℝ) : ℂ),
       ((27 / 4 : ℝ) : ℂ)] := by
    simp only [List.cons.injEq, and_true]
    refine ⟨?_, ?_, ?_, ?_⟩
    · push_cast
      ring
    · push_cast
      linear_combination (11 / 2 : ℂ) * Complex.I_sq
    · push_cast
      ring
    · push_cast
      linear_combination (-(11 / 2) : ℂ) * Complex.I_sq
  rw [hifft]
  simp only [List.map_cons, List.map_nil, Complex.ofReal_re]
  have e1 : astypeInt16 (-5 / 4 : ℝ) = -1 := by
    unfold astypeInt16 truncTowardZero
    rw [if_neg (by norm_num)]
    rw [show ⌈(-5 / 4 : ℝ)⌉ = (-1 : ℤ) from by
      rw [Int.ceil_eq_iff]
      constructor <;> norm_num]
    decide
  have e2 : astypeInt16 (-17 / 4 : ℝ) = -4 := by
    unfold astypeInt16 truncTowardZero
    rw [if_neg (by norm_num)]
    rw [show ⌈(-17 / 4 : ℝ)⌉ = (-4 : ℤ) from by
      rw [Int.ceil_eq_iff]
      constructor <;> norm_num]
    decide
  have e3 : astypeInt16 (27 / 4 : ℝ) = 6 := by
    unfold astypeInt16 truncTowardZero
    rw [if_pos (by norm_num)]
    rw [show ⌊(27 / 4 : ℝ)⌋ = (6 : ℤ) from by
      rw [Int.floor_eq_iff]
      constructor <;> norm_num]
    decide
  rw [e1, e2, e3]

theorem castList_C8b :
    (([-1, -4, -1, 6] : List ℤ).map fun z : ℤ => (z : ℂ)) =
      [(-1 : ℂ), -4, -1, 6] := by
  simp

theorem spec_C8b :
    npFFT [(-1 : ℂ), -4, -1, 6] =
      [0, 10 * Complex.I, -4, -10 * Complex.I] := by
  rw [npFFT_four]
  simp only [List.cons.injEq, and_true]
  refine ⟨by ring, by ring, by ring, by ring⟩

theorem abs_10I : Complex.abs (10 * Complex.I) = 10 := by
  rw [show (10 : ℂ) * Complex.I = ((0 : ℝ) : ℂ) + ((10 : ℝ) : ℂ) * Complex.I
    by push_cast; ring]
  exact complex_abs_gauss 0 10 10 (by norm_num) (by norm_num)

theorem abs_neg10I : Complex.abs (-10 * Complex.I) = 10 := by
  rw [show (-10 : ℂ) * Complex.I = ((0 : ℝ) : ℂ) + ((-10 : ℝ) : ℂ) * Complex.I
    by push_cast; ring]
  exact complex_abs_gauss 0 (-10) 10 (by norm_num) (by norm_num)

theorem mapAbs_C8b :
    ([0, 10 * Complex.I, -4, -10 * Complex.I]).map Complex.abs =
      [0, 10, 4, 10] := by
  simp only [List.map_cons, List.map_nil, List.cons.injEq, and_true]
  refine ⟨by simp, abs_10I, ?_, abs_neg10I⟩
  rw [show (-4 : ℂ) = ((-4 : ℝ) : ℂ) by norm_num, Complex.abs_ofReal]
  norm_num

theorem mags_C8b : magnitudes [-1, -4, -1, 6] = [0, 10, 4, 10] := by
  unfold magnitudes
  rw [castList_C8b, spec_C8b, mapAbs_C8b]

theorem maxMag_C8b : maxMag [(0 : ℝ), 10, 4, 10] = 10 := by
  unfold maxMag
  norm_num [max_def]

theorem masked_C8b :
    maskedMags (15 / 16) 10 [(0 : ℝ), 10, 4, 10] = [0, 4] := by
  unfold maskedMags
  rw [if_pos (by norm_num)]
  unfold maskedMags
  rw [if_neg (by norm_num)]
  unfold maskedMags
  rw [if_pos (by norm_num)]
  unfold maskedMags
  rw [if_neg (by norm_num)]
  rfl

theorem noiseEst_C8b :
    noiseEstimate [-1, -4, -1, 6] (15 / 16) = some 2 := by
  unfold noiseEstimate
  rw [mags_C8b, maxMag_C8b, masked_C8b]
  unfold npMeanOpt
  rw [if_neg (by simp)]
  norm_num

theorem reduce_C8b :
    reduce_noise [-1, -4, -1, 6] (15 / 16) =
      [some 0, some (-3), some 0, some 4] := by
  unfold reduce_noise
  rw [noiseEst_C8b]
  dsimp only
  rw [castList_C8b, spec_C8b, mapAbs_C8b]
  have hclean :
      ([0, 10, 4, 10] : List ℝ).map (fun m => max (m - 2) 0) =
        [0, 8, 2, 8] := by
    simp only [List.map_cons, List.map_nil]
    norm_num [max_def]
  rw [hclean]
  have h10ne : (10 : ℂ) * Complex.I ≠ 0 := by
    intro h
    have h2 := congrArg Complex.im h
    simp at h2
  have h10ne' : (-10 : ℂ) * Complex.I ≠ 0 := by
    intro h
    have h2 := congrArg Complex.im h
    simp at h2
  have hzip :
      List.zipWith (fun (m : ℝ) (z : ℂ) => (m : ℂ) * phaseDir z)
        [0, 8, 2, 8]
        [0, 10 * Complex.I, -4, -10 * Complex.I] =
        [0, 8 * Complex.I, -2, -8 * Complex.I] := by
    simp only [List.zipWith_cons_cons, List.zipWith_nil_right,
      List.zipWith_nil_left, List.cons.injEq, and_true]
    refine ⟨?_, ?_, ?_, ?_⟩
    · push_cast
      ring
    · unfold phaseDir
      rw [if_neg h10ne, abs_10I]
      push_cast
      field_simp
    · unfold phaseDir
      rw [if_neg (by norm_num : (-4 : ℂ) ≠ 0)]
      rw [show Complex.abs (-4) = 4 by
        rw [show (-4 : ℂ) = ((-4 : ℝ) : ℂ) by norm_num, Complex.abs_ofReal]
        norm_num]
      push_cast
      field_simp
    · unfold phaseDir
      rw [if_neg h10ne', abs_neg10I]
      push_cast
      field_simp
      ring
  rw [hzip, npIFFT_four]
  have hifft :
      [((0 : ℂ) + 8 * Complex.I + -2 + -8 * Complex.I) / 4,
       ((0 : ℂ) + 8 * Complex.I * Complex.I - -2 -
         -8 * Complex.I * Complex.I) / 4,
       ((0 : ℂ) - 8 * Complex.I + -2 - -8 * Complex.I) / 4,
       ((0 : ℂ) - 8 * Complex.I * Complex.I - -2 +
         -8 * Complex.I * Complex.I) / 4] =
      [((-1 / 2 : ℝ) : ℂ), ((-7 / 2 : ℝ) : ℂ), ((-1 / 2 : ℝ) : ℂ),
       ((9 / 2 : ℝ) : ℂ)] := by
    simp only [List.cons.injEq, and_true]
    refine ⟨?_, ?_, ?_, ?_⟩
    · push_cast
      ring
    · push_cast
      linear_combination (4 : ℂ) * Complex.I_sq
    · push_cast
      ring
    · push_cast
      linear_combination (-4 : ℂ) * Complex.I_sq
  rw [hifft]
  simp only [List.map_cons, List.map_nil, Complex.ofReal_re]
  have e1 : astypeInt16 (-1 / 2 : ℝ) = 0 := by
    unfold astypeInt16 truncTowardZero
    rw [if_neg (by norm_num)]
    rw [show ⌈(-1 / 2 : ℝ)⌉ = (0 : ℤ) from by
      rw [Int.ceil_eq_iff]
      constructor <;> norm_num]
    decide
  have e2 : astypeInt16 (-7 / 2 : ℝ) = -3 := by
    unfold astypeInt16 truncTowardZero
    rw [if_neg (by norm_num)]
    rw [show ⌈(-7 / 2 : ℝ)⌉ = (-3 : ℤ) from by
      rw [Int.ceil_eq_iff]
      constructor <;> norm_num]
    decide
  have e3 : astypeInt16 (9 / 2 : ℝ) = 4 := by
    unfold astypeInt16 truncTowardZero
    rw [if_pos (by norm_num)]
    rw [show ⌊(9 / 2 : ℝ)⌋ = (4 : ℤ) from by
      rw [Int.floor_eq_iff]
      constructor <;> norm_num]
    decide
  rw [e1, e2, e3]

theorem spec_C8z :
    npFFT [(0 : ℂ), -3, 0, 4] =
      [1, 7 * Complex.I, -1, -7 * Complex.I] := by
  rw [npFFT_four]
  simp only [List.cons.injEq, and_true]
  refine ⟨by ring, by ring, by ring, by ring⟩

/-! ## Lemmas about the filesystem model and output paths -/

theorem fsGet_fsSet_self (fs : FS) (p v : String) :
    fsGet (fsSet fs p v) p = some v := by
  simp [fsGet, fsSet]

theorem fsGet_fsSet_ne (fs : FS) (p q v : String) (h : q ≠ p) :
    fsGet (fsSet fs p v) q = fsGet fs q := by
  show (if p = q then some v else fsGet fs q) = fsGet fs q
  rw [if_neg fun hpq => h hpq.symm]

theorem data_append (s t : String) : (s ++ t).data = s.data ++ t.data := rfl

/-- A primary transcript path never coincides with a translation-artifact
path: the two fixed suffixes differ at the fifth character from the end. -/
theorem path_suffix_ne (s t : String) :
    s ++ "-transcript.txt" ≠ t ++ "-transcript_en.txt" := by
  intro h
  have h1 : ((s ++ "-transcript.txt").data.reverse)[4]? =
      ((t ++ "-transcript_en.txt").data.reverse)[4]? := by rw [h]
  rw [data_append, data_append, List.reverse_append, List.reverse_append,
    List.getElem?_append_left (by decide),
    List.getElem?_append_left (by decide)] at h1
  revert h1
  decide

theorem transcriptPath_ne_translation (p q : String) :
    transcriptPath q ≠ p ++ "-transcript_en.txt" :=
  path_suffix_ne (transcriptBase q) p

/-! ## The pipeline never emits the denoise stage -/

theorem create_no_denoise (fs : FS) (p t : String) :
    Event.denoised ∉ (create_transcript_file fs p t).2 := by
  unfold create_transcript_file
  split <;> simp

theorem translate_no_denoise (c : Collab) (fs : FS) (p t : String) :
    Event.denoised ∉ (translateAndWrite c fs p t).2 := by
  unfold translateAndWrite
  cases hc : c.translate t <;> simp

theorem process_file_no_denoise (c : Collab) (fs : FS) (p : String)
    (tb : Bool) : Event.denoised ∉ (process_file c fs p tb).2 := by
  unfold process_file
  split
  · simp
  · split
    · simp
    · dsimp only
      split
      · intro hmem
        rcases List.mem_append.mp hmem with h1 | h2
        · exact create_no_denoise _ _ _ h1
        · exact translate_no_denoise _ _ _ _ h2
      · exact create_no_denoise _ _ _

theorem processWalkFile_no_denoise (c : Collab) (tb : Bool) (fs : FS)
    (root f : String) :
    Event.denoised ∉ (processWalkFile c tb fs root f).2 := by
  unfold processWalkFile
  split
  · simp
  · split
    · simp
    · dsimp only
      split
      · intro hmem
        rcases List.mem_append.mp hmem with h1 | h2
        · exact create_no_denoise _ _ _ h1
        · exact translate_no_denoise _ _ _ _ h2
      · exact create_no_denoise _ _ _

theorem processTripleFiles_no_denoise (c : Collab) (tb : Bool)
    (root : String) (files : List String) (fs : FS) :
    Event.denoised ∉ (processTripleFiles c tb root files fs).2 := by
  induction files generalizing fs with
  | nil => simp [processTripleFiles]
  | cons f rest ih =>
      unfold processTripleFiles
      dsimp only
      intro hmem
      rcases List.mem_append.mp hmem with h1 | h2
      · exact processWalkFile_no_denoise _ _ _ _ _ h1
      · exact ih _ h2

theorem processWalk_no_denoise (c : Collab) (tb : Bool)
    (triples : List (String × List String)) (fs : FS) :
    Event.denoised ∉ (processWalk c tb triples fs).2 := by
  induction triples generalizing fs with
  | nil => simp [processWalk]
  | cons tr rest ih =>
      rcases tr with ⟨root, files⟩
      unfold processWalk
      dsimp only
      intro hmem
      rcases List.mem_append.mp hmem with h1 | h2
      · exact processTripleFiles_no_denoise _ _ _ _ _ h1
      · exact ih _ h2

theorem mainRun_no_denoise (a : Args) (c : Collab) (w : DirWorld) (fs : FS) :
    Event.denoised ∉ eventsOf (mainRun a c w fs) := by
  cases hf : a.input_file_path with
  | some p =>
      unfold mainRun
      rw [hf]
      exact process_file_no_denoise c fs p a.translate
  | none =>
      cases hd : a.input_directory_path with
      | some d =>
          unfold mainRun
          rw [hf]
          dsimp only
          rw [hd]
          dsimp only
          unfold process_directory
          by_cases hdir : w.isDir d
          · rw [if_neg (by simp [hdir])]
            by_cases hrec : a.recursive
            · rw [if_pos hrec]
              exact processWalk_no_denoise _ _ _ _
            · rw [if_neg hrec]
              simp [eventsOf]
          · rw [if_pos (by simp [hdir])]
            simp [eventsOf]
      | none =>
          unfold mainRun
          rw [hf]
          dsimp only
          rw [hd]
          simp [eventsOf]

/-! ## The primary transcript artifact is never overwritten -/

theorem create_preserves (fs : FS) (p t q v : String)
    (h : fsGet fs (transcriptPath q) = some v) :
    fsGet (create_transcript_file fs p t).1 (transcriptPath q) = some v := by
  unfold create_transcript_file
  split
  · exact h
  · rename_i hnone
    by_cases hpq : transcriptPath p = transcriptPath q
    · rw [hpq, h] at hnone
      simp at hnone
    · rw [fsGet_fsSet_ne _ _ _ _ fun he => hpq he.symm]
      exact h

theorem translate_write_preserves (c : Collab) (fs : FS) (p t q v : String)
    (h : fsGet fs (transcriptPath q) = some v) :
    fsGet (translateAndWrite c fs p t).1 (transcriptPath q) = some v := by
  unfold translateAndWrite
  cases hc : c.translate t with
  | none => exact h
  | some tr =>
      dsimp only
      rw [fsGet_fsSet_ne _ _ _ _ (transcriptPath_ne_translation p q)]
      exact h

theorem process_file_preserves (c : Collab) (fs : FS) (p : String) (tb : Bool)
    (q v : String) (h : fsGet fs (transcriptPath q) = some v) :
    fsGet (process_file c fs p tb).1 (transcriptPath q) = some v := by
  unfold process_file
  split
  · exact h
  · split
    · exact h
    · dsimp only
      split
      · exact translate_write_preserves _ _ _ _ _ _
          (create_preserves _ _ _ _ _ h)
      · exact create_preserves _ _ _ _ _ h

theorem processWalkFile_preserves (c : Collab) (tb : Bool) (fs : FS)
    (root f q v : String) (h : fsGet fs (transcriptPath q) = some v) :
    fsGet (processWalkFile c tb fs root f).1 (transcriptPath q) = some v := by
  unfold processWalkFile
  split
  · exact h
  · split
    · exact h
    · dsimp only
      split
      · exact translate_write_preserves _ _ _ _ _ _
          (create_preserves _ _ _ _ _ h)
      · exact create_preserves _ _ _ _ _ h

theorem processTripleFiles_preserves (c : Collab) (tb : Bool) (root : String)
    (files : List String) (fs : FS) (q v : String)
    (h : fsGet fs (transcriptPath q) = some v) :
    fsGet (processTripleFiles c tb root files fs).1 (transcriptPath q) =
      some v := by
  induction files generalizing fs with
  | nil => exact h
  | cons f rest ih =>
      unfold processTripleFiles
      dsimp only
      exact ih _ (processWalkFile_preserves _ _ _ _ _ _ _ h)

theorem processWalk_preserves (c : Collab) (tb : Bool)
    (triples : List (String × List String)) (fs : FS) (q v : String)
    (h : fsGet fs (transcriptPath q) = some v) :
    fsGet (processWalk c tb triples fs).1 (transcriptPath q) = some v := by
  induction triples generalizing fs with
  | nil => exact h
  | cons tr rest ih =>
      rcases tr with ⟨root, files⟩
      unfold processWalk
      dsimp only
      exact ih _ (processTripleFiles_preserves _ _ _ _ _ _ _ h)

/-! ## Claim theorems -/

/-- C1: the CLI parses a noise-reduction flag, but the pipeline ignores it:
`mainRun` returns the same result whatever `noise_reduction` is set to, and
no run ever reaches the denoise stage — `reduce_noise` is dead code, so the
flag never causes it to run before the Recognizer. -/
theorem C1_noise_flag_ignored (a : Args) (b : Bool) (c : Collab)
    (w : DirWorld) (fs : FS) :
    mainRun { a with noise_reduction := b } c w fs = mainRun a c w fs ∧
      Event.denoised ∉ eventsOf (mainRun a c w fs) :=
  ⟨by cases a; rfl, mainRun_no_denoise a c w fs⟩

/-- Filesystem of the C2 counterexample: the input audio plus a
pre-existing translation artifact. -/
def fsC2 : FS := [("rec.wav", "AUDIO"), ("rec.wav-transcript_en.txt", "old")]

/-- Collaborators of the C2 counterexample: recognition, detection and
translation all succeed. -/
def collabC2 : Collab where
  recognize := fun _ => .ok "hola mundo"
  detectLang := fun _ => some "es"
  translate := fun _ => some "hello world"

/-- C2 counterexample: with translation enabled, a pre-existing translation
artifact `rec.wav-transcript_en.txt` with content `old` is overwritten with
the fresh translation — the write is not skipped, so the no-overwrite
invariant fails for the translation artifact. -/
theorem C2_counterexample :
    fsGet fsC2 "rec.wav-transcript_en.txt" = some "old" ∧
      fsGet (process_file collabC2 fsC2 "rec.wav" true).1
        "rec.wav-transcript_en.txt" = some "hello world\n" ∧
      ("hello world\n" : String) ≠ "old" := by
  refine ⟨by decide, by decide, by decide⟩

/-- C2 (amended): the *primary* transcript artifact is never overwritten —
its pre-existing content survives `process_file` and the recursive
directory walk; only the translation artifact is written unconditionally. -/
theorem C2_primary_never_overwritten (c : Collab) (q v : String) :
    (∀ (fs : FS) (p : String) (tb : Bool),
        fsGet fs (transcriptPath q) = some v →
        fsGet (process_file c fs p tb).1 (transcriptPath q) = some v) ∧
    (∀ (fs : FS) (tb : Bool) (triples : List (String × List String)),
        fsGet fs (transcriptPath q) = some v →
        fsGet (processWalk c tb triples fs).1 (transcriptPath q) = some v) :=
  ⟨fun fs p tb h => process_file_preserves c fs p tb q v h,
   fun fs tb triples h => processWalk_preserves c tb triples fs q v h⟩

/-- C2 witness: a concrete pre-existing primary transcript survives a run. -/
theorem C2_witness :
    fsGet [("x-transcript.txt", "keep")] (transcriptPath "x.wav") =
      some "keep" ∧
    fsGet (process_file collabC2 [("x-transcript.txt", "keep")] "x.wav"
      true).1 (transcriptPath "x.wav") = some "keep" :=
  ⟨by decide,
   (C2_primary_never_overwritten collabC2 "x.wav" "keep").1 _ _ _ (by decide)⟩

/-- C3 counterexample: at `[1]` with threshold `1` no bin is strictly below
the threshold, and the noise estimate is the NaN of `np.mean([])`
(modelled `none`) — not the zero fallback the claim asserts. -/
theorem C3_counterexample :
    noiseEstimate [1] 1 = none ∧ ¬ noiseEstimate [1] 1 = some 0 := by
  refine ⟨noiseEstimate_one, ?_⟩
  rw [noiseEstimate_one]
  simp

/-- C3 (amended): when no bin is below the threshold, `reduce_noise` still
returns (no exception) a full-length output, but every sample is
NaN-poisoned/unspecified and the noise estimate is undefined rather than
zero. -/
theorem C3_nan_not_zero (audio : List ℤ) (t : ℝ)
    (h : noiseEstimate audio t = none) :
    reduce_noise audio t = audio.map (fun _ => none) ∧
      (reduce_noise audio t).length = audio.length := by
  constructor
  · unfold reduce_noise
    rw [h]
  · exact reduce_noise_length audio t

/-- C3 witness: the degenerate single-sample input. -/
theorem C3_witness :
    noiseEstimate [1] 1 = none ∧ reduce_noise [1] 1 = [none] ∧
      (reduce_noise [1] 1).length = 1 := by
  refine ⟨noiseEstimate_one, ?_, (C3_nan_not_zero [1] 1 noiseEstimate_one).2⟩
  rw [(C3_nan_not_zero [1] 1 noiseEstimate_one).1]
  rfl

/-- C4 counterexample: for `[40000, 40000, 40000, 39000]` at the default
threshold the reconstruction is the constant `39500 > 32767`, and the cast
wraps it to `-26036`; the saturating cast the claim requires would give
`32767`. -/
theorem C4_counterexample :
    reduce_noise [40000, 40000, 40000, 39000] (1 / 20) =
      [some (-26036), some (-26036), some (-26036), some (-26036)] ∧
    astypeInt16 ((39500 : ℝ)) = -26036 ∧
    satCastInt16 ((39500 : ℝ)) = 32767 ∧
    ((32767 : ℝ) < 39500) ∧ ((-26036 : ℤ) ≠ 32767) := by
  refine ⟨reduce_C4, ?_, ?_, by norm_num, by decide⟩
  · rw [show (39500 : ℝ) = ((39500 : ℤ) : ℝ) by norm_num, astypeInt16_intCast]
    decide
  · unfold satCastInt16 truncTowardZero
    rw [show (39500 : ℝ) = ((39500 : ℤ) : ℝ) by norm_num,
      if_pos (by norm_num : (0 : ℝ) ≤ ((39500 : ℤ) : ℝ)), Int.floor_intCast]
    decide

/-- C4 (amended): the cast wraps modulo `2 ^ 16` instead of saturating:
every defined output sample lies in `[-32768, 32767]`, and the wrap is the
identity exactly on the in-range values. -/
theorem C4_wrap_into_range :
    (∀ (audio : List ℤ) (t : ℝ) (o : Option ℤ) (v : ℤ),
        o ∈ reduce_noise audio t → o = some v →
        -32768 ≤ v ∧ v ≤ 32767) ∧
    (∀ z : ℤ, -32768 ≤ z → z ≤ 32767 → wrap16 z = z) := by
  constructor
  · intro audio t o v ho hov
    subst hov
    unfold reduce_noise at ho
    cases h : noiseEstimate audio t with
    | none =>
        rw [h] at ho
        obtain ⟨z, _, habs⟩ := List.mem_map.mp ho
        exact absurd habs (by simp)
    | some ν =>
        rw [h] at ho
        dsimp only at ho
        obtain ⟨w, _, hw⟩ := List.mem_map.mp ho
        have hv : v = astypeInt16 w.re := by
          injection hw with hw'
          exact hw'.symm
        rw [hv]
        unfold astypeInt16 wrap16
        constructor <;> omega
  · intro z h1 h2
    unfold wrap16
    omega

/-- C4 witness: the wrapped output of the counterexample input is in range,
and the wrap fixes a small in-range value. -/
theorem C4_witness :
    ((-32768 : ℤ) ≤ -26036 ∧ (-26036 : ℤ) ≤ 32767) ∧ wrap16 5 = 5 := by
  constructor
  · exact C4_wrap_into_range.1 [40000, 40000, 40000, 39000] (1 / 20)
      (some (-26036)) (-26036) (by rw [reduce_C4]; simp) rfl
  · exact C4_wrap_into_range.2 5 (by decide) (by decide)

/-- C5: `reduce_noise` preserves the input length for every non-empty input
and threshold in `(0, 1]`, and is deterministic — equal inputs and
thresholds give equal outputs (the embedding is a pure function). -/
theorem C5_length_deterministic (audio : List ℤ) (t : ℝ) (_hne : audio ≠ [])
    (_h0 : 0 < t) (_h1 : t ≤ 1) :
    (reduce_noise audio t).length = audio.length ∧
      ∀ (audio' : List ℤ) (t' : ℝ), audio = audio' → t = t' →
        reduce_noise audio t = reduce_noise audio' t' :=
  ⟨reduce_noise_length audio t, fun _ _ ha ht => by rw [ha, ht]⟩

/-- C5 witness: the length guarantee at a concrete input. -/
theorem C5_witness :
    ([1] : List ℤ) ≠ [] ∧ (0 : ℝ) < 1 ∧ (1 : ℝ) ≤ 1 ∧
      (reduce_noise [1] 1).length = 1 :=
  ⟨by simp, one_pos, le_refl 1,
    (C5_length_deterministic [1] 1 (by simp) one_pos (le_refl 1)).1⟩

/-- Directory world of the C6 theorem: `calls` is a directory holding one
supported file. -/
def dirWorldC6 : DirWorld where
  isDir := fun d => d == "calls"
  walk := fun _ => [("calls", ["a.wav"])]

/-- C6: non-recursive directory mode raises: line 123 hands the *list*
`[directory_path]` to `os.walk`, which raises `TypeError` at its first
iteration, before any file is processed — contradicting the claim that the
immediate children are processed and nothing is raised. -/
theorem C6_nonrecursive_type_error (c : Collab) (fs : FS) (tb : Bool) :
    process_directory dirWorldC6 c "calls" false tb fs =
      .error .typeError := by
  rfl

/-- Live collaborator whose every capture times out. -/
def lcTimeout : LiveCollab where
  capture := fun _ => none
  recognizeHi := fun _ => none
  detectLang := fun _ => none
  translate := fun _ => none

/-- C7: no cancellation signal exists: the capture loop's run is identical
under every keyboard history; the watcher thread itself finishes and prints
`Program terminated.` one poll after Esc is pressed; and with Esc held down
from the start the capture loop is still running after every number of
iterations — it never observes any signal and never terminates. -/
theorem C7_cancellation_never_observed :
    (∀ (lc : LiveCollab) (esc esc' : ℕ → Bool) (n : ℕ),
        live_main_run lc esc n = live_main_run lc esc' n) ∧
    listen_keyboard_run (fun _ => true) 1 =
      (.finished, ["Program terminated."]) ∧
    (∀ n : ℕ, (live_main_run lcTimeout (fun _ => true) n).1 = .running) := by
  refine ⟨?_, rfl, ?_⟩
  · intro lc esc esc' n
    induction n with
    | zero => rfl
    | succ n ih =>
        unfold live_main_run
        rw [ih]
  · intro n
    induction n with
    | zero => rfl
    | succ n ih =>
        unfold live_main_run
        rcases h : live_main_run lcTimeout (fun _ => true) n with ⟨st, out⟩
        have hst : st = LiveStatus.running := by
          rw [h] at ih
          exact ih
        subst hst
        rfl

theorem castList_C8z :
    (([0, -3, 0, 4] : List ℤ).map fun z : ℤ => (z : ℂ)) =
      [(0 : ℂ), -3, 0, 4] := by
  simp

/-- C8 counterexample: at threshold `15/16`, `[-37, -40, -37, 45]` reduces
to `[-1, -4, -1, 6]`, whose bin-0 magnitude is `0`; reducing once more
gives `[0, -3, 0, 4]` with bin-0 magnitude `1` — the re-quantisation to
`int16` *increased* a bin magnitude of the twice-reduced signal beyond the
first pass's.  Every reconstructed sample of both passes is at least `1/4`
away from the nearest integer and every comparison has like margin, so the
same integer trajectory is what the program's float64 arithmetic
computes. -/
theorem C8_counterexample :
    reduce_noise [-37, -40, -37, 45] (15 / 16) =
      [some (-1), some (-4), some (-1), some 6] ∧
    reduce_noise [-1, -4, -1, 6] (15 / 16) =
      [some 0, some (-3), some 0, some 4] ∧
    Complex.abs ((npFFT (([-1, -4, -1, 6] : List ℤ).map fun z : ℤ =>
      (z : ℂ))).getD 0 0) = 0 ∧
    Complex.abs ((npFFT (([0, -3, 0, 4] : List ℤ).map fun z : ℤ =>
      (z : ℂ))).getD 0 0) = 1 ∧ (0 : ℝ) < 1 := by
  refine ⟨reduce_C8a, reduce_C8b, ?_, ?_, by norm_num⟩
  · rw [castList_C8b, spec_C8b]
    simp
  · rw [castList_C8z, spec_C8z]
    simp

/-- C8 (amended): within one application the spectral subtraction itself is
magnitude non-increasing — the noise estimate is non-negative and each
clamped subtracted magnitude is at most the original; the final integer
cast, not the subtraction, is what the counterexample exploits. -/
theorem C8_subtraction_monotone (audio : List ℤ) (t ν : ℝ)
    (h : noiseEstimate audio t = some ν) :
    0 ≤ ν ∧ ∀ m ∈ magnitudes audio, max (m - ν) 0 ≤ m := by
  have hν := noiseEstimate_nonneg audio t ν h
  refine ⟨hν, fun m hm => ?_⟩
  have hm0 : 0 ≤ m := magnitudes_nonneg audio m hm
  exact max_le (by linarith) hm0

/-- C8 witness: the monotonicity at the concrete first-pass input. -/
theorem C8_witness :
    (0 : ℝ) ≤ 74 ∧ max ((85 : ℝ) - 74) 0 ≤ 85 := by
  refine ⟨(C8_subtraction_monotone _ _ _ noiseEst_C8a).1, ?_⟩
  exact (C8_subtraction_monotone _ _ _ noiseEst_C8a).2 85
    (by rw [mags_C8a]; simp)

/-- C9 counterexample: two distinct input paths with the same basename stem
map to the same primary transcript path — the output-path map is not
injective over inputs. -/
theorem C9_counterexample :
    transcriptPath "a/x.wav" = transcriptPath "b/x.mp3" ∧
      ("a/x.wav" : String) ≠ "b/x.mp3" :=
  ⟨by decide, by decide⟩

/-- C9 (amended): the transcript path depends only on the basename stem,
and is injective on stems: inputs with distinct stems never target the
same primary transcript path. -/
theorem C9_distinct_stems (p q : String)
    (h : transcriptBase p ≠ transcriptBase q) :
    transcriptPath p ≠ transcriptPath q := by
  intro he
  apply h
  unfold transcriptPath at he
  have hd := congrArg String.data he
  rw [data_append, data_append] at hd
  exact String.ext (List.append_left_injective _ hd)

/-- C9 witness: two concrete distinct stems give distinct paths. -/
theorem C9_witness :
    transcriptBase "x.wav" ≠ transcriptBase "y.wav" ∧
      transcriptPath "x.wav" ≠ transcriptPath "y.wav" :=
  ⟨by decide, C9_distinct_stems _ _ (by decide)⟩

/-- C10: when recognition succeeds but language detection raises, the
generic handler yields `(None, None)` and `process_file` returns with the
filesystem unchanged — the recognised transcript is silently dropped, for
either value of the translation flag. -/
theorem C10_detect_failure_drops_transcript (c : Collab) (fs : FS)
    (p tr : String) (tb : Bool)
    (hv : is_valid_file fs p = true) (hs : is_supported_format p = true)
    (hr : c.recognize p = .ok tr) (hd : c.detectLang tr = none) :
    process_file c fs p tb = (fs, [Event.recognitionFailed]) := by
  unfold process_file
  rw [if_neg (by simp [hv, hs])]
  unfold detect_and_route_language
  rw [hr]
  dsimp only
  rw [hd]

/-- Collaborator of the C10 witness: recognition succeeds, detection
raises. -/
def collabC10 : Collab where
  recognize := fun _ => .ok "zzz"
  detectLang := fun _ => none
  translate := fun _ => none

/-- C10 witness: a concrete valid supported file whose transcript is
dropped after a langdetect failure, with translation enabled. -/
theorem C10_witness :
    process_file collabC10 [("a.wav", "x")] "a.wav" true =
      ([("a.wav", "x")], [Event.recognitionFailed]) :=
  C10_detect_failure_drops_transcript collabC10 [("a.wav", "x")] "a.wav"
    "zzz" true (by decide) (by decide) rfl rfl
